import Mathlib

/-!
Shallow embedding of the concurrent SLO evaluation pipeline of the vigil
repository (main.go, utils/calc.go, gcp/gcp.go, model/slo.go, client.go).

Go float64 values are modelled as rationals: every value reachable in the
evaluated code paths is a finite decimal, and the arithmetic performed on
them (comparison, sum, division by a list length) is exact on rationals.
The single non-finite float in the source, the initial value math.Inf(1)
of the running minimum in GetMinAvgErrorBudget, is modelled explicitly by
an Option: none stands for positive infinity.
-/

namespace Vigil

/-- Running-minimum update of utils/calc.go, GetMinAvgErrorBudget:
the body of the loop executes minValue = point when point < minValue,
where minValue is initially math.Inf(1) (modelled as none, which every
finite point compares below). -/
def minStep (minValue : Option ℚ) (point : ℚ) : Option ℚ :=
  match minValue with
  | none => some point
  | some m => if point < m then some point else some m

/-- utils/calc.go, GetMinAvgErrorBudget (the guarded variant that opens the
file): an empty slice returns the sentinel pair (0, 0); otherwise the loop
folds the running minimum from math.Inf(1) and accumulates the sum, and the
function returns (minValue, avgValue / len(points)).  For a non-empty list
the fold always produces a finite value, so the default 0 supplied to getD
is never read (proved in foldl_minStep_ne_none below). -/
def GetMinAvgErrorBudget (points : List ℚ) : ℚ × ℚ :=
  if points.length = 0 then (0, 0)
  else
    ((points.foldl minStep none).getD 0,
     points.foldl (fun avgValue point => avgValue + point) 0 / points.length)

/-- Number of strictly negative entries: the negativeCount loop of
utils/calc.go, IsPercentNegative. -/
def negativeCount (data : List ℚ) : Nat :=
  data.countP (fun num => decide (num < 0))

/-- utils/calc.go, IsPercentNegative (the guarded variant that opens the
file): percent outside [0, 1] returns false; an empty slice returns false;
otherwise the result is float64(negativeCount)/float64(len(data)) >= percent. -/
def IsPercentNegative (data : List ℚ) (percent : ℚ) : Bool :=
  if percent < 0 || percent > 1 then false
  else if data.length = 0 then false
  else decide ((negativeCount data : ℚ) / (data.length : ℚ) ≥ percent)

/-- model/slo.go, SLO: provider-scoped name, display name and goal.  The
opaque provider payload SLI (an interface value never interpreted by the
core) is not modelled. -/
structure SLO where
  Name : String
  DisplayName : String
  Goal : ℚ

/-- model/slo.go, SLOData: the per-SLO evaluation record written into the
result map.  main.go leaves Key and TargetSLO at their Go zero values. -/
structure SLOData where
  Key : String
  Flag : Bool
  TargetSLO : ℚ
  SLO : ℚ
  GoodQuery : String
  TotalQuery : String
  AvgBudget : ℚ
  MinBudget : ℚ
deriving DecidableEq

/-- main.go lines 541-548 (flagBelowThreshold loop of processSLO): the loop
sets the flag and breaks as soon as one point satisfies
point >= errorBudgetThreshold. -/
def flagBelowThreshold (points : List ℚ) (errorBudgetThreshold : ℚ) : Bool :=
  points.any (fun point => decide (point ≥ errorBudgetThreshold))

/-- main.go lines 541-560 (evaluation core of processSLO): combines the
below-threshold loop, IsPercentNegative(points, 0.5) and
GetMinAvgErrorBudget(points) into the SLOData record stored under the
display name. -/
def evalSLO (errorBudgetThreshold : ℚ) (slo : SLO)
    (goodQuery totalQuery : String) (points : List ℚ) : SLOData :=
  { Key := ""
    Flag := flagBelowThreshold points errorBudgetThreshold || IsPercentNegative points (1/2)
    TargetSLO := 0
    SLO := slo.Goal
    GoodQuery := goodQuery
    TotalQuery := totalQuery
    AvgBudget := (GetMinAvgErrorBudget points).2
    MinBudget := (GetMinAvgErrorBudget points).1 }

/-- Result of one provider fetch: either the two query descriptors with the
point sequence, or an error message.  This is the shape of the return value
of GetErrorBudgetTimeSeries in the Vigil interface of client.go. -/
inductive FetchResult where
  | ok (goodQuery totalQuery : String) (points : List ℚ)
  | err (msg : String)

/-- gcp/gcp.go lines 144-146 (tail of GetErrorBudgetTimeSeries): when the
provider returned zero points the fetch fails with the tagged no-data error
message built from the display name; otherwise the queries and points are
returned. -/
def gcpFetch (goodQuery totalQuery : String) (slo : SLO) (points : List ℚ) : FetchResult :=
  if points.length = 0 then FetchResult.err ("no data points found for SLO: " ++ slo.DisplayName)
  else FetchResult.ok goodQuery totalQuery points

/-- Character-list prefix test: does the needle match at the start of the
haystack?  Building block of the strings.Contains model. -/
def matchesAt : List Char → List Char → Bool
  | [], _ => true
  | _ :: _, [] => false
  | n :: ns, h :: hs => n == h && matchesAt ns hs

/-- Scan of strings.Contains: the needle matches at some position of the
haystack. -/
def containsSub (needle : List Char) : List Char → Bool
  | [] => matchesAt needle []
  | c :: rest => matchesAt needle (c :: rest) || containsSub needle rest

/-- strings.Contains(s, substr) over the character data of the strings. -/
def stringContains (s substr : String) : Bool :=
  containsSub substr.data s.data

/-- The tag the orchestrator greps for in fetch error messages
(main.go line 532). -/
def noDataText : String := "no data points found"

/-- Outcome of processing one SLO, as observed by the fan-in code of main:
a merged record keyed by display name, a warning appended to warnMessages,
or an error sent to errChan. -/
inductive ProcessOutcome where
  | record (key : String) (data : SLOData)
  | warn (msg : String)
  | fail (msg : String)

/-- main.go lines 525-563 (processSLO) together with the error wrapping of
its caller (line 487): a fetch error whose message contains the no-data tag
is recorded as a warning and produces no record; any other fetch error is a
hard failure wrapped as "failed to process SLO <name>: <err>"; a successful
fetch produces the evaluation record under the display name. -/
def processSLO (errorBudgetThreshold : ℚ) (slo : SLO) (fetch : FetchResult) : ProcessOutcome :=
  match fetch with
  | FetchResult.err msg =>
    if stringContains msg noDataText then ProcessOutcome.warn msg
    else ProcessOutcome.fail ("failed to process SLO " ++ slo.DisplayName ++ ": " ++ msg)
  | FetchResult.ok goodQuery totalQuery points =>
    ProcessOutcome.record slo.DisplayName (evalSLO errorBudgetThreshold slo goodQuery totalQuery points)

/-- Per-SLO outcomes of one run, in dispatch order.  The Go orchestrator
merges results in completion order, which is unspecified; this embedding
serializes the schedule in dispatch order, which the statements below do
not depend on beyond the choice of which concurrent error is "first". -/
def outcomes (errorBudgetThreshold : ℚ) (batch : List (SLO × FetchResult)) : List ProcessOutcome :=
  batch.map (fun sf => processSLO errorBudgetThreshold sf.1 sf.2)

/-- The records merged into the shared sloData map, in merge order. -/
def recordsOf (os : List ProcessOutcome) : List (String × SLOData) :=
  os.filterMap (fun o =>
    match o with
    | ProcessOutcome.record k d => some (k, d)
    | _ => none)

/-- The warnMessages accumulated during the run, in append order. -/
def warningsOf (os : List ProcessOutcome) : List String :=
  os.filterMap (fun o =>
    match o with
    | ProcessOutcome.warn m => some m
    | _ => none)

/-- The errors sent to errChan during the run. -/
def failuresOf (os : List ProcessOutcome) : List String :=
  os.filterMap (fun o =>
    match o with
    | ProcessOutcome.fail m => some m
    | _ => none)

/-- main.go lines 470-516: the run evaluates every SLO of the batch, then —
after all workers have finished — panics with the first error drained from
errChan if any was sent, and otherwise yields the merged record map together
with the accumulated warnings.  A hard error therefore discards every
already-merged record: the caller observes only the error. -/
def runBatch (errorBudgetThreshold : ℚ) (batch : List (SLO × FetchResult)) :
    Except String (List (String × SLOData) × List String) :=
  match failuresOf (outcomes errorBudgetThreshold batch) with
  | [] =>
    Except.ok (recordsOf (outcomes errorBudgetThreshold batch),
      warningsOf (outcomes errorBudgetThreshold batch))
  | e :: _ => Except.error e

/-- main.go line 435: the capacity of the semaphore channel. -/
def maxConcurrency : Nat := 16

/-- Scheduler-visible state of the orchestrator of main.go lines 473-504:
how many goroutines currently hold a semaphore slot (and are evaluating an
SLO), how many SLOs are not yet dispatched, and how many have completed. -/
structure OrchestratorState where
  inFlight : Nat
  pending : Nat
  completed : Nat

/-- One scheduler step of the orchestrator: the main loop dispatches a new
SLO only after acquiring a slot on the semaphore channel (sem <- struct{}{}
blocks while 16 slots are taken), and a worker goroutine releases its slot
when it finishes (defer func() { <-sem }()). -/
inductive OrchStep : OrchestratorState → OrchestratorState → Prop where
  | dispatch (s : OrchestratorState) (hp : 0 < s.pending) (hc : s.inFlight < maxConcurrency) :
      OrchStep s ⟨s.inFlight + 1, s.pending - 1, s.completed⟩
  | finish (s : OrchestratorState) (hf : 0 < s.inFlight) :
      OrchStep s ⟨s.inFlight - 1, s.pending, s.completed + 1⟩

/-- Interleavings reachable from a given initial scheduler state. -/
inductive OrchReachable (init : OrchestratorState) : OrchestratorState → Prop where
  | refl : OrchReachable init init
  | step (s t : OrchestratorState) :
      OrchReachable init s → OrchStep s t → OrchReachable init t

end Vigil

namespace Vigil

lemma foldl_minStep_some (a : ℚ) (l : List ℚ) :
    ∃ m, l.foldl minStep (some a) = some m ∧ (m = a ∨ m ∈ l) ∧ m ≤ a ∧ ∀ x ∈ l, m ≤ x := by
  induction l generalizing a with
  | nil => exact ⟨a, rfl, Or.inl rfl, le_refl a, by simp⟩
  | cons h t ih =>
    by_cases hc : h < a
    · obtain ⟨m, hm, hmem, hle, hall⟩ := ih h
      refine ⟨m, ?_, ?_, ?_, ?_⟩
      · simpa [minStep, hc] using hm
      · rcases hmem with rfl | hmem
        · exact Or.inr (List.mem_cons_self _ _)
        · exact Or.inr (List.mem_cons_of_mem _ hmem)
      · exact le_trans hle (le_of_lt hc)
      · intro x hx
        rcases List.mem_cons.mp hx with rfl | hx
        · exact hle
        · exact hall x hx
    · obtain ⟨m, hm, hmem, hle, hall⟩ := ih a
      refine ⟨m, ?_, ?_, ?_, ?_⟩
      · simpa [minStep, hc] using hm
      · rcases hmem with rfl | hmem
        · exact Or.inl rfl
        · exact Or.inr (List.mem_cons_of_mem _ hmem)
      · exact hle
      · intro x hx
        rcases List.mem_cons.mp hx with rfl | hx
        · exact le_trans hle (not_lt.mp hc)
        · exact hall x hx

lemma foldl_minStep_ne_none (l : List ℚ) (hl : l ≠ []) :
    ∃ m, l.foldl minStep none = some m ∧ m ∈ l ∧ ∀ x ∈ l, m ≤ x := by
  cases l with
  | nil => exact absurd rfl hl
  | cons h t =>
    obtain ⟨m, hm, hmem, hle, hall⟩ := foldl_minStep_some h t
    refine ⟨m, ?_, ?_, ?_⟩
    · simpa [minStep] using hm
    · rcases hmem with rfl | hmem
      · exact List.mem_cons_self _ _
      · exact List.mem_cons_of_mem _ hmem
    · intro x hx
      rcases List.mem_cons.mp hx with rfl | hx
      · exact hle
      · exact hall x hx

lemma foldl_add_eq_sum (l : List ℚ) :
    l.foldl (fun avgValue point => avgValue + point) 0 = l.sum := by
  have h : ∀ (a : ℚ), l.foldl (fun avgValue point => avgValue + point) a = a + l.sum := by
    induction l with
    | nil => intro a; simp
    | cons h t ih =>
      intro a
      simp only [List.foldl_cons, List.sum_cons, ih, add_assoc]
  simpa using h 0

/-- Claim C6: GetMinAvgErrorBudget applied to the empty sequence returns the
sentinel pair (0, 0), and for every non-empty sequence it returns the
smallest element of the sequence together with the arithmetic mean. -/
theorem getMinAvg_empty_sentinel_and_nonempty_min_mean :
    GetMinAvgErrorBudget [] = (0, 0) ∧
    ∀ points : List ℚ, points ≠ [] →
      ((GetMinAvgErrorBudget points).1 ∈ points ∧
        ∀ x ∈ points, (GetMinAvgErrorBudget points).1 ≤ x) ∧
      (GetMinAvgErrorBudget points).2 = points.sum / (points.length : ℚ) := by
  constructor
  · rfl
  · intro points hne
    have hlen : points.length ≠ 0 := by
      simpa [List.length_eq_zero] using hne
    obtain ⟨m, hm, hmem, hall⟩ := foldl_minStep_ne_none points hne
    constructor
    · constructor
      · simp [GetMinAvgErrorBudget, hlen, hm]
        exact hmem
      · intro x hx
        have : (GetMinAvgErrorBudget points).1 = m := by
          simp [GetMinAvgErrorBudget, hlen, hm]
        rw [this]
        exact hall x hx
    · simp [GetMinAvgErrorBudget, hlen, foldl_add_eq_sum]

/-- Claim C6 witness at points = [3, -2, 5]. -/
theorem getMinAvg_witness :
    ([3, -2, 5] : List ℚ) ≠ [] ∧
    (GetMinAvgErrorBudget [3, -2, 5]).1 ∈ ([3, -2, 5] : List ℚ) ∧
    (GetMinAvgErrorBudget [3, -2, 5]).2 = ([3, -2, 5] : List ℚ).sum / 3 := by
  have h := getMinAvg_empty_sentinel_and_nonempty_min_mean.2 [3, -2, 5] (by decide)
  exact ⟨by decide, h.1.1, h.2⟩

/-- Claim C7: IsPercentNegative returns false for every sequence whenever the
threshold lies outside [0, 1], and returns false on the empty sequence for
every threshold value. -/
theorem isPercentNegative_out_of_range_and_empty_false :
    (∀ (data : List ℚ) (percent : ℚ), percent < 0 ∨ percent > 1 →
        IsPercentNegative data percent = false) ∧
    (∀ percent : ℚ, IsPercentNegative [] percent = false) := by
  constructor
  · intro data percent hp
    rcases hp with hp | hp
    · simp [IsPercentNegative, hp]
    · simp [IsPercentNegative, hp]
  · intro percent
    by_cases hp : percent < 0 || percent > 1
    · simp [IsPercentNegative, hp]
    · simp only [IsPercentNegative, hp]
      simp

/-- Claim C7 witness: threshold 1.5 on a non-empty sequence, and threshold
0.5 on the empty sequence, both return false. -/
theorem isPercentNegative_guard_witness :
    IsPercentNegative [-1, -2] (3/2) = false ∧ IsPercentNegative [] (1/2) = false :=
  ⟨isPercentNegative_out_of_range_and_empty_false.1 [-1, -2] (3/2) (Or.inr (by norm_num)),
   isPercentNegative_out_of_range_and_empty_false.2 (1/2)⟩

/-- Claim C10: for every non-empty point sequence, IsPercentNegative with
threshold 0 returns true, including sequences with no negative point: the
negative fraction is compared with the threshold using ≥ and is always ≥ 0. -/
theorem isPercentNegative_zero_threshold_true (points : List ℚ) (hne : points ≠ []) :
    IsPercentNegative points 0 = true := by
  have hlen : points.length ≠ 0 := by
    simpa [List.length_eq_zero] using hne
  have hfrac : ((negativeCount points : ℚ) / (points.length : ℚ)) ≥ 0 := by
    apply div_nonneg
    · exact Nat.cast_nonneg _
    · exact Nat.cast_nonneg _
  simp [IsPercentNegative, hlen, hfrac]

/-- Claim C10 witness: a sequence with no negative point still satisfies the
threshold-0 predicate. -/
theorem isPercentNegative_zero_threshold_witness :
    IsPercentNegative [1/2, 3/4] 0 = true :=
  isPercentNegative_zero_threshold_true [1/2, 3/4] (by decide)

/-- Claim C1: the below-threshold loop of processSLO implements an
existential rule — it reports true as soon as one point is ≥ the threshold —
and not the universal rule of the claim.  At points = [0.95, 0.5] with
threshold 0.9 the code reports true although 0.5 < 0.9, so the rule does not
hold exactly when every point is ≥ the threshold. -/
theorem flagBelowThreshold_is_exists_rule :
    (∀ (points : List ℚ) (threshold : ℚ),
        flagBelowThreshold points threshold = true ↔ ∃ p ∈ points, threshold ≤ p) ∧
    flagBelowThreshold [95/100, 50/100] (90/100) = true ∧
    ¬ (∀ p ∈ ([95/100, 50/100] : List ℚ), (90/100 : ℚ) ≤ p) := by
  refine ⟨?_, ?_, ?_⟩
  · intro points threshold
    simp [flagBelowThreshold, List.any_eq_true, ge_iff_le]
  · simp [flagBelowThreshold]
    norm_num
  · intro h
    exact absurd (h (50/100) (by simp)) (by norm_num)

/-- Claim C1 witness: the existential characterization at a concrete input. -/
theorem flagBelowThreshold_is_exists_rule_witness :
    flagBelowThreshold [2] 1 = true ↔ ∃ p ∈ ([2] : List ℚ), (1 : ℚ) ≤ p :=
  flagBelowThreshold_is_exists_rule.1 [2] 1

/-- Claim C2 counterexample: at the claim's own input, points =
[0.95, 0.96, 0.97] with threshold 0.9, the evaluation record has flag = true
(the below-threshold loop fires on 0.95 ≥ 0.9), not flag = false as claimed. -/
theorem evalSLO_all_above_concrete_flag_true :
    (evalSLO (90/100) ⟨"slo", "display", 99/100⟩ "good" "total"
      [95/100, 96/100, 97/100]).Flag = true := by
  have hflag : flagBelowThreshold [95/100, 96/100, 97/100] (90/100) = true := by
    simp [flagBelowThreshold]
    norm_num
  simp [evalSLO, hflag]

/-- Claim C2 (amended): for every non-empty point sequence in which every
point is ≥ the threshold and the strictly-negative fraction is < 0.5, the
evaluator returns flag = true; at points = [0.95, 0.96, 0.97] with threshold
0.9 the record has flag = true, minBudget = 0.95 and avgBudget = 0.96. -/
theorem evalSLO_all_above_flag_true (threshold : ℚ) (slo : SLO)
    (goodQuery totalQuery : String) (points : List ℚ)
    (hne : points ≠ []) (hall : ∀ p ∈ points, threshold ≤ p)
    (_hneg : (negativeCount points : ℚ) / (points.length : ℚ) < 1/2) :
    (evalSLO threshold slo goodQuery totalQuery points).Flag = true ∧
    ((evalSLO (90/100) ⟨"slo", "display", 99/100⟩ "good" "total"
        [95/100, 96/100, 97/100]).Flag = true ∧
      (evalSLO (90/100) ⟨"slo", "display", 99/100⟩ "good" "total"
        [95/100, 96/100, 97/100]).MinBudget = 95/100 ∧
      (evalSLO (90/100) ⟨"slo", "display", 99/100⟩ "good" "total"
        [95/100, 96/100, 97/100]).AvgBudget = 96/100) := by
  constructor
  · obtain ⟨p, hp⟩ := List.exists_mem_of_ne_nil points hne
    have hflag : flagBelowThreshold points threshold = true := by
      simp only [flagBelowThreshold, List.any_eq_true, decide_eq_true_eq, ge_iff_le]
      exact ⟨p, hp, hall p hp⟩
    simp [evalSLO, hflag]
  · refine ⟨?_, ?_, ?_⟩
    · have hflag : flagBelowThreshold [95/100, 96/100, 97/100] (90/100) = true := by
        simp [flagBelowThreshold]
        norm_num
      simp [evalSLO, hflag]
    · norm_num [evalSLO, GetMinAvgErrorBudget, minStep]
    · norm_num [evalSLO, GetMinAvgErrorBudget]

/-- Claim C2 witness: the amended statement instantiated at the claim's
concrete input. -/
theorem evalSLO_all_above_flag_true_witness :
    (evalSLO (90/100) ⟨"slo", "display", 99/100⟩ "good" "total"
      [95/100, 96/100, 97/100]).Flag = true ∧
    (evalSLO (90/100) ⟨"slo", "display", 99/100⟩ "good" "total"
      [95/100, 96/100, 97/100]).MinBudget = 95/100 ∧
    (evalSLO (90/100) ⟨"slo", "display", 99/100⟩ "good" "total"
      [95/100, 96/100, 97/100]).AvgBudget = 96/100 :=
  (evalSLO_all_above_flag_true (90/100) ⟨"slo", "display", 99/100⟩ "good" "total"
    [95/100, 96/100, 97/100] (by decide) (by norm_num)
    (by norm_num [negativeCount, List.countP, List.countP.go])).2

/-- Claim C5: the sustained-negative rule holds exactly when the
strictly-negative fraction is ≥ 0.5 (for non-empty sequences; empty
sequences never fire), and at points = [-0.1, -0.2, 0.3, 0.4] — two of four
points negative — the record has flag = true for every threshold ≤ 0.3,
whatever the below-threshold loop returns. -/
theorem isPercentNegative_half_characterization :
    (∀ points : List ℚ, points ≠ [] →
        (IsPercentNegative points (1/2) = true ↔
          (negativeCount points : ℚ) / (points.length : ℚ) ≥ 1/2)) ∧
    IsPercentNegative [] (1/2) = false ∧
    (∀ threshold : ℚ, threshold ≤ 3/10 →
        (evalSLO threshold ⟨"slo", "display", 99/100⟩ "good" "total"
          [-1/10, -2/10, 3/10, 4/10]).Flag = true) := by
  refine ⟨?_, by norm_num [IsPercentNegative], ?_⟩
  · intro points hne
    have hlen : points.length ≠ 0 := by
      simpa [List.length_eq_zero] using hne
    have h05 : ((1/2 : ℚ) < 0 || (1/2 : ℚ) > 1) = false := by norm_num
    simp [IsPercentNegative, hlen, h05, ge_iff_le]
    intro _
    norm_num
  · intro threshold hth
    have hneg : IsPercentNegative [-1/10, -2/10, 3/10, 4/10] (1/2) = true := by
      norm_num [IsPercentNegative, negativeCount, List.countP, List.countP.go]
    simp only [evalSLO]
    rw [hneg, Bool.or_true]

lemma matchesAt_iff (n : List Char) : ∀ h : List Char,
    matchesAt n h = true ↔ ∃ rest, h = n ++ rest := by
  induction n with
  | nil => intro h; simp [matchesAt]
  | cons c ns ih =>
    intro h
    cases h with
    | nil => simp [matchesAt]
    | cons d hs =>
      simp only [matchesAt, Bool.and_eq_true, beq_iff_eq, ih hs, List.cons_append]
      constructor
      · rintro ⟨rfl, rest, rfl⟩
        exact ⟨rest, rfl⟩
      · rintro ⟨rest, heq⟩
        rw [List.cons_eq_cons] at heq
        exact ⟨heq.1.symm, rest, heq.2⟩

lemma containsSub_iff (n : List Char) : ∀ h : List Char,
    containsSub n h = true ↔ ∃ pre post, h = pre ++ n ++ post := by
  intro h
  induction h with
  | nil =>
    simp only [containsSub, matchesAt_iff]
    constructor
    · rintro ⟨rest, hr⟩
      rcases List.append_eq_nil.mp hr.symm with ⟨rfl, rfl⟩
      exact ⟨[], [], rfl⟩
    · rintro ⟨pre, post, hp⟩
      rcases List.append_eq_nil.mp hp.symm with ⟨h1, rfl⟩
      rcases List.append_eq_nil.mp h1 with ⟨rfl, rfl⟩
      exact ⟨[], rfl⟩
  | cons c rest ih =>
    simp only [containsSub, Bool.or_eq_true, matchesAt_iff, ih]
    constructor
    · rintro (⟨r, hr⟩ | ⟨pre, post, hp⟩)
      · exact ⟨[], r, by simpa using hr⟩
      · exact ⟨c :: pre, post, by simp [hp]⟩
    · rintro ⟨pre, post, hp⟩
      cases pre with
      | nil => exact Or.inl ⟨post, by simpa using hp⟩
      | cons d pres =>
        rw [List.cons_append, List.cons_append, List.cons_eq_cons] at hp
        exact Or.inr ⟨pres, post, by simp [hp.2]⟩

lemma containsSub_append_self (n rest : List Char) : containsSub n (n ++ rest) = true :=
  (containsSub_iff n (n ++ rest)).mpr ⟨[], rest, by simp⟩

lemma noData_msg_contains (name : String) :
    stringContains ("no data points found for SLO: " ++ name) noDataText = true := by
  unfold stringContains
  rw [String.data_append]
  have hsplit : ("no data points found for SLO: ").data
      = noDataText.data ++ (" for SLO: ").data := by decide
  rw [hsplit, List.append_assoc]
  exact containsSub_append_self _ _

lemma processSLO_noData (θ : ℚ) (slo : SLO) (g t : String) :
    processSLO θ slo (gcpFetch g t slo []) =
      ProcessOutcome.warn ("no data points found for SLO: " ++ slo.DisplayName) := by
  simp [gcpFetch, processSLO, noData_msg_contains]

lemma outcomes_append (θ : ℚ) (a b : List (SLO × FetchResult)) :
    outcomes θ (a ++ b) = outcomes θ a ++ outcomes θ b :=
  List.map_append _ a b

lemma outcomes_cons (θ : ℚ) (x : SLO × FetchResult) (b : List (SLO × FetchResult)) :
    outcomes θ (x :: b) = processSLO θ x.1 x.2 :: outcomes θ b :=
  rfl

lemma failuresOf_append (a b : List ProcessOutcome) :
    failuresOf (a ++ b) = failuresOf a ++ failuresOf b :=
  List.filterMap_append a b _

lemma failuresOf_warn_cons (m : String) (os : List ProcessOutcome) :
    failuresOf (ProcessOutcome.warn m :: os) = failuresOf os :=
  rfl

lemma recordsOf_append (a b : List ProcessOutcome) :
    recordsOf (a ++ b) = recordsOf a ++ recordsOf b :=
  List.filterMap_append a b _

lemma recordsOf_warn_cons (m : String) (os : List ProcessOutcome) :
    recordsOf (ProcessOutcome.warn m :: os) = recordsOf os :=
  rfl

lemma warningsOf_append (a b : List ProcessOutcome) :
    warningsOf (a ++ b) = warningsOf a ++ warningsOf b :=
  List.filterMap_append a b _

lemma warningsOf_warn_cons (m : String) (os : List ProcessOutcome) :
    warningsOf (ProcessOutcome.warn m :: os) = m :: warningsOf os :=
  rfl

/-- Claim C3: when some SLO's fetch fails with a hard error, the run returns
the first error sent to errChan and the caller observes no evaluation
record at all — not even records of SLOs that were processed successfully. -/
theorem runBatch_hard_error_aborts (θ : ℚ) (batch : List (SLO × FetchResult))
    (e : String) (rest : List String)
    (h : failuresOf (outcomes θ batch) = e :: rest) :
    runBatch θ batch = Except.error e ∧
    ∀ recs warns, runBatch θ batch ≠ Except.ok (recs, warns) := by
  have hrun : runBatch θ batch = Except.error e := by
    simp [runBatch, h]
  exact ⟨hrun, fun recs warns hok => by rw [hrun] at hok; exact Except.noConfusion hok⟩

/-- Claim C3 witness: a batch of three SLOs whose second and third fetches
fail hard; the run surfaces the wrapped first error and is not an ok
result. -/
theorem runBatch_hard_error_aborts_witness :
    runBatch 1
      [(SLO.mk "a" "alpha" 1, FetchResult.ok "g" "t" [1]),
       (SLO.mk "b" "beta" 1, FetchResult.err "boom"),
       (SLO.mk "c" "gamma" 1, FetchResult.err "crash")] =
      Except.error "failed to process SLO beta: boom" :=
  (runBatch_hard_error_aborts 1
    [(SLO.mk "a" "alpha" 1, FetchResult.ok "g" "t" [1]),
     (SLO.mk "b" "beta" 1, FetchResult.err "boom"),
     (SLO.mk "c" "gamma" 1, FetchResult.err "crash")]
    "failed to process SLO beta: boom" ["failed to process SLO gamma: crash"]
    (by decide)).1

/-- Claim C4: an SLO whose fetch yields zero points contributes exactly the
warning "no data points found for SLO: <displayName>" to the warning list
and no record to the result map; when every other SLO of the batch avoids a
hard error the run still completes with the records of all the other SLOs. -/
theorem runBatch_no_data_warns (θ : ℚ) (pre post : List (SLO × FetchResult))
    (slo : SLO) (g t : String)
    (hpre : failuresOf (outcomes θ pre) = [])
    (hpost : failuresOf (outcomes θ post) = []) :
    runBatch θ (pre ++ (slo, gcpFetch g t slo []) :: post) =
      Except.ok
        (recordsOf (outcomes θ pre) ++ recordsOf (outcomes θ post),
         warningsOf (outcomes θ pre) ++
           ("no data points found for SLO: " ++ slo.DisplayName) ::
             warningsOf (outcomes θ post)) := by
  have hsplit : outcomes θ (pre ++ (slo, gcpFetch g t slo []) :: post)
      = outcomes θ pre ++
          ProcessOutcome.warn ("no data points found for SLO: " ++ slo.DisplayName) ::
            outcomes θ post := by
    rw [outcomes_append, outcomes_cons, processSLO_noData]
  have hfail : failuresOf (outcomes θ (pre ++ (slo, gcpFetch g t slo []) :: post)) = [] := by
    rw [hsplit, failuresOf_append, failuresOf_warn_cons, hpre, hpost]
    rfl
  have hrec : recordsOf (outcomes θ (pre ++ (slo, gcpFetch g t slo []) :: post))
      = recordsOf (outcomes θ pre) ++ recordsOf (outcomes θ post) := by
    rw [hsplit, recordsOf_append, recordsOf_warn_cons]
  have hwarn : warningsOf (outcomes θ (pre ++ (slo, gcpFetch g t slo []) :: post))
      = warningsOf (outcomes θ pre) ++
          ("no data points found for SLO: " ++ slo.DisplayName) ::
            warningsOf (outcomes θ post) := by
    rw [hsplit, warningsOf_append, warningsOf_warn_cons]
  simp [runBatch, hfail, hrec, hwarn]

/-- Claim C4 witness: a two-SLO batch whose second fetch yields zero points;
the run completes with the first SLO's record and the no-data warning. -/
theorem runBatch_no_data_warns_witness :
    runBatch 1
      [(SLO.mk "a" "alpha" 1, FetchResult.ok "g" "t" [1]),
       (SLO.mk "b" "beta" 1, gcpFetch "g2" "t2" (SLO.mk "b" "beta" 1) [])] =
      Except.ok
        (recordsOf (outcomes 1 [(SLO.mk "a" "alpha" 1, FetchResult.ok "g" "t" [1])]) ++
           recordsOf (outcomes 1 []),
         warningsOf (outcomes 1 [(SLO.mk "a" "alpha" 1, FetchResult.ok "g" "t" [1])]) ++
           ("no data points found for SLO: " ++ (SLO.mk "b" "beta" 1).DisplayName) ::
             warningsOf (outcomes 1 [])) :=
  runBatch_no_data_warns 1 [(SLO.mk "a" "alpha" 1, FetchResult.ok "g" "t" [1])] []
    (SLO.mk "b" "beta" 1) "g2" "t2" rfl rfl

/-- Claim C9: the no-data classification of a failed fetch is pure substring
matching on the message — the message is downgraded to a warning, counted
as success with no record, exactly when it contains the text
"no data points found" anywhere, and every other message aborts the batch
with the wrapped hard error. -/
theorem processSLO_classifies_by_substring (θ : ℚ) (slo : SLO) (msg : String) :
    (stringContains msg noDataText = true ↔
      ∃ pre post, msg.data = pre ++ noDataText.data ++ post) ∧
    (stringContains msg noDataText = true →
      processSLO θ slo (FetchResult.err msg) = ProcessOutcome.warn msg ∧
      runBatch θ [(slo, FetchResult.err msg)] = Except.ok ([], [msg])) ∧
    (stringContains msg noDataText = false →
      runBatch θ [(slo, FetchResult.err msg)] =
        Except.error ("failed to process SLO " ++ slo.DisplayName ++ ": " ++ msg)) := by
  refine ⟨containsSub_iff noDataText.data msg.data, ?_, ?_⟩
  · intro h
    have hp : processSLO θ slo (FetchResult.err msg) = ProcessOutcome.warn msg := by
      simp [processSLO, h]
    refine ⟨hp, ?_⟩
    simp [runBatch, outcomes, hp, failuresOf, recordsOf, warningsOf]
  · intro h
    have hp : processSLO θ slo (FetchResult.err msg) =
        ProcessOutcome.fail ("failed to process SLO " ++ slo.DisplayName ++ ": " ++ msg) := by
      simp [processSLO, h]
    simp [runBatch, outcomes, hp, failuresOf]

/-- Claim C9 witness: a wrapped hard failure that merely contains the tag is
downgraded to a warning, and a plain connection error aborts the batch. -/
theorem processSLO_classifies_by_substring_witness :
    (processSLO 1 (SLO.mk "a" "alpha" 1)
        (FetchResult.err "rpc failed: no data points found upstream") =
      ProcessOutcome.warn "rpc failed: no data points found upstream") ∧
    runBatch 1 [(SLO.mk "a" "alpha" 1, FetchResult.err "connection refused")] =
      Except.error "failed to process SLO alpha: connection refused" :=
  ⟨((processSLO_classifies_by_substring 1 (SLO.mk "a" "alpha" 1)
      "rpc failed: no data points found upstream").2.1 (by decide)).1,
   (processSLO_classifies_by_substring 1 (SLO.mk "a" "alpha" 1)
      "connection refused").2.2 (by decide)⟩

/-- Claim C8: in every interleaving of the orchestrator reachable from the
initial state — no worker running, all SLOs pending — the number of SLO
evaluations holding a semaphore slot simultaneously never exceeds
maxConcurrency = 16, however many SLOs the batch contains. -/
theorem orchestrator_inFlight_bounded (slos : Nat) (s : OrchestratorState)
    (h : OrchReachable ⟨0, slos, 0⟩ s) : s.inFlight ≤ maxConcurrency := by
  induction h with
  | refl => exact Nat.zero_le _
  | step u t hu hstep ih =>
    cases hstep with
    | dispatch hp hc => exact hc
    | finish hf => exact le_trans (Nat.sub_le _ _) ih

/-- Claim C8 witness: after dispatching one of 50 SLOs the bound holds at
the reached state. -/
theorem orchestrator_inFlight_bounded_witness :
    (OrchestratorState.mk 1 49 0).inFlight ≤ maxConcurrency :=
  orchestrator_inFlight_bounded 50 (OrchestratorState.mk 1 49 0)
    (OrchReachable.step (OrchestratorState.mk 0 50 0) (OrchestratorState.mk 1 49 0)
      OrchReachable.refl
      (OrchStep.dispatch (OrchestratorState.mk 0 50 0) (by decide) (by decide)))

/-- Claim C5 witness: the characterization at [-1, 2] and the concrete
record at threshold 0.2. -/
theorem isPercentNegative_half_witness :
    (IsPercentNegative [-1, 2] (1/2) = true ↔
      (negativeCount [-1, 2] : ℚ) / (([-1, 2] : List ℚ).length : ℚ) ≥ 1/2) ∧
    (evalSLO (2/10) ⟨"slo", "display", 99/100⟩ "good" "total"
      [-1/10, -2/10, 3/10, 4/10]).Flag = true :=
  ⟨isPercentNegative_half_characterization.1 [-1, 2] (by decide),
   isPercentNegative_half_characterization.2.2 (2/10) (by norm_num)⟩

end Vigil
